import Mathlib

/-!
Verification development for the thread-drafting agent service.

Part 1 models the Thread Store (the `messages` table of
`src/models/database_models.py` accessed through `src/services/mysql_service.py`,
restricted to a single user since every query filters on `user_id`) and the
draft-commit protocol of `src/app_services.py`.

Part 2 models the tool-calling agent loop of `src/agent.py`
(`GenericMCPAgent.run_intelligent_agent` and `GenericMCPAgent.execute_tool`),
with the LLM and the tool providers treated as external oracles.
-/

namespace LinkedinIntern

/-- `MessageType` from `src/models/database_models.py`. -/
inductive MessageType where
  | DRAFT
  | MESSAGE
deriving DecidableEq, Repr

/-- A row of the `messages` table (`Message` in `src/models/database_models.py`),
for one fixed user: `id`, `msg_content`, `type`, `thread_name`, `sender_name`,
`agent_id`.  Timestamps and `created_at` carry no protocol content and are left out. -/
structure Message where
  id : String
  msg_content : String
  type : MessageType
  thread_name : String
  sender_name : String
  agent_id : Option String
deriving DecidableEq, Repr

/-- The Thread Store for one user: the list of that user's rows of the
`messages` table, in insertion order. -/
abbrev Store := List Message

/-- `get_all_messages_of_thread` from `src/services/mysql_service.py`:
select the rows whose `thread_name` matches. -/
def get_all_messages_of_thread (s : Store) (thread_name : String) : List Message :=
  s.filter (fun m => m.thread_name == thread_name)

/-- `get_message` from `src/services/mysql_service.py`: select the row whose
`id` matches (`scalar_one_or_none`). -/
def get_message (s : Store) (message_id : String) : Option Message :=
  (s.filter (fun m => m.id == message_id)).head?

/-- `remove_message` from `src/services/mysql_service.py`: delete every row
whose `id` matches. -/
def remove_message (s : Store) (message_id : String) : Store :=
  s.filter (fun m => !(m.id == message_id))

/-- `add_message` from `src/services/mysql_service.py`: insert a new row. -/
def add_message (s : Store) (m : Message) : Store :=
  s ++ [m]

/-- Outcome of the commit step, following the spec taxonomy
`Committed(draft_id) | DiscardedStale | DiscardedDuplicate`.  The source
function returns `Optional[str]`; the two `None` returns are distinguished
by which branch produced them (each prints a distinct diagnostic). -/
inductive CommitOutcome where
  | Committed (draft_id : String)
  | DiscardedStale
  | DiscardedDuplicate
deriving DecidableEq, Repr

/-- The draft row written by the commit step of
`process_thread_and_create_draft` (`src/app_services.py`, the
`add_message(..., message_type=MessageType.DRAFT, ...)` call). -/
def draft_row (draft_id draft_content thread_name agent_id : String) : Message :=
  { id := draft_id
    msg_content := draft_content
    type := MessageType.DRAFT
    thread_name := thread_name
    sender_name := "Agent"
    agent_id := some agent_id }

/-- The commit step of `process_thread_and_create_draft`
(`src/app_services.py` lines 117-152), run when the agent produced a draft:
re-fetch the thread, compute the MESSAGE-type rows whose ids are not in the
basis (`thread_message_ids`), discard if any exist, otherwise discard if the
thread already holds a DRAFT row, otherwise insert the draft row. -/
def commit_draft_step (s : Store) (thread_name : String) (basis_ids : List String)
    (draft_id draft_content agent_id : String) : CommitOutcome × Store :=
  let all_current_thread_messages := get_all_messages_of_thread s thread_name
  let new_messages := all_current_thread_messages.filter
    (fun m => m.type == MessageType.MESSAGE && !(basis_ids.contains m.id))
  if new_messages ≠ [] then
    (CommitOutcome.DiscardedStale, s)
  else if all_current_thread_messages.any (fun m => m.type == MessageType.DRAFT) then
    (CommitOutcome.DiscardedDuplicate, s)
  else
    (CommitOutcome.Committed draft_id,
      add_message s (draft_row draft_id draft_content thread_name agent_id))

/-- Number of MESSAGE-type rows of the thread currently in the store whose
ids are outside the basis: the number `M` of new messages that arrived after
the basis was captured. -/
def new_message_count (s : Store) (thread_name : String) (basis_ids : List String) : Nat :=
  ((get_all_messages_of_thread s thread_name).filter
    (fun m => m.type == MessageType.MESSAGE && !(basis_ids.contains m.id))).length

/-- Whether the thread currently holds a DRAFT-type row. -/
def has_draft (s : Store) (thread_name : String) : Bool :=
  (get_all_messages_of_thread s thread_name).any (fun m => m.type == MessageType.DRAFT)

/-- One message of `APISendMessageRequest.messages`
(`src/models/api_models.py`); the `date`/`time` fields only feed the stored
timestamp and are left out. -/
structure APIMessage where
  message_id : String
  sender_name : String
  message_content : String
deriving DecidableEq, Repr

/-- Store-level effect of `process_thread_and_create_draft`
(`src/app_services.py`): drop request messages already present, bail out if
none are new, delete the existing drafts of the thread, insert the new
messages as MESSAGE rows, then (when the agent produced a draft) run the
commit step against the basis captured from the stored thread.  The agent run
is external: its outcome enters as `agent_draft` (the `draft_content`
extracted from the final conversation message, if any); `draft_id` stands for
`create_message_id("Agent", datetime.now(), content)` and `agent_id` for the
fresh `uuid4`.  The `upsert_agent` write goes to the `agents` table, not to
the message store modelled here. -/
def process_thread_and_create_draft (s : Store) (thread_name : String)
    (request_messages : List APIMessage) (agent_draft : Option String)
    (draft_id agent_id : String) : Option String × Store :=
  let existing_messages := get_all_messages_of_thread s thread_name
  let existing_message_ids := existing_messages.map (fun m => m.id)
  let new_api_messages := request_messages.filter
    (fun m => !(existing_message_ids.contains m.message_id))
  if new_api_messages = [] then (none, s)
  else
    let existing_drafts := existing_messages.filter (fun m => m.type == MessageType.DRAFT)
    let s1 := existing_drafts.foldl (fun acc d => remove_message acc d.id) s
    let s2 := new_api_messages.foldl
      (fun acc m => add_message acc
        { id := m.message_id
          msg_content := m.message_content
          type := MessageType.MESSAGE
          thread_name := thread_name
          sender_name := m.sender_name
          agent_id := none }) s1
    match agent_draft with
    | none => (none, s2)
    | some draft_content =>
      let thread_messages := get_all_messages_of_thread s2 thread_name
      let basis := (thread_messages.filter
        (fun m => m.type == MessageType.MESSAGE)).map (fun m => m.id)
      let r := commit_draft_step s2 thread_name basis draft_id draft_content agent_id
      (match r.1 with
        | CommitOutcome.Committed d => some d
        | CommitOutcome.DiscardedStale => none
        | CommitOutcome.DiscardedDuplicate => none,
       r.2)

/-- Store-level effect of `create_revised_draft_from_feedback`
(`src/app_services.py`): look up the message named by `draft_message_id`
(raising `ValueError`, hence writing nothing, when absent), run the revision
agent (external, outcome `revised_content`), and if a revision was produced
delete the old row and insert the new DRAFT row unconditionally.  The stored
`agent_id` is `old_draft.agent_id or str(uuid.uuid4())`: the Python `or`
falls back to the fresh uuid both for a missing and for an empty agent id. -/
def create_revised_draft_from_feedback (s : Store) (draft_message_id : String)
    (revised_content : Option String) (new_draft_id fresh_agent_id : String) :
    Option String × Store :=
  match get_message s draft_message_id with
  | none => (none, s)
  | some old_draft =>
    match revised_content with
    | none => (none, s)
    | some content =>
      let agent_id := match old_draft.agent_id with
        | some a => if a = "" then fresh_agent_id else a
        | none => fresh_agent_id
      let s1 := remove_message s draft_message_id
      let s2 := add_message s1
        { id := new_draft_id
          msg_content := content
          type := MessageType.DRAFT
          thread_name := old_draft.thread_name
          sender_name := "Agent"
          agent_id := some agent_id }
      (some new_draft_id, s2)

/-- Store-level effect of `delete_draft` (`src/app_services.py`). -/
def delete_draft (s : Store) (draft_message_id : String) : Store :=
  remove_message s draft_message_id

/-- Number of DRAFT-type rows of the given thread in the store. -/
def draft_count (s : Store) (thread_name : String) : Nat :=
  (s.filter (fun m => m.type == MessageType.DRAFT && m.thread_name == thread_name)).length

/-- The at-most-one-draft invariant: every thread holds at most one
DRAFT-type row. -/
def AtMostOneDraftPerThread (s : Store) : Prop :=
  ∀ t, draft_count s t ≤ 1

/-- The three sequential Thread Store operations of the service layer, with
their external oracle inputs. -/
inductive StoreOp where
  | processThread (thread_name : String) (request_messages : List APIMessage)
      (agent_draft : Option String) (draft_id agent_id : String)
  | feedback (draft_message_id : String) (revised_content : Option String)
      (new_draft_id fresh_agent_id : String)
  | deleteDraft (draft_message_id : String)

/-- Apply one service operation to the store. -/
def applyOp (s : Store) : StoreOp → Store
  | StoreOp.processThread t rm ad did aid =>
      (process_thread_and_create_draft s t rm ad did aid).2
  | StoreOp.feedback dmid rc nid fid =>
      (create_revised_draft_from_feedback s dmid rc nid fid).2
  | StoreOp.deleteDraft dmid => delete_draft s dmid

/-- Apply a sequence of service operations to the store, in order. -/
def applyOps (s : Store) (ops : List StoreOp) : Store :=
  ops.foldl applyOp s

/-- A feedback operation is well-aimed when the id it names is (if present at
all) a DRAFT-type row; the other operations are unconstrained. -/
def FeedbackTargetsDraft (s : Store) : StoreOp → Prop
  | StoreOp.feedback dmid _ _ _ =>
      ∀ m, get_message s dmid = some m → m.type = MessageType.DRAFT
  | _ => True

/-- Every feedback operation of the sequence is well-aimed at the store state
it actually executes against. -/
def ValidOps (s : Store) : List StoreOp → Prop
  | [] => True
  | op :: rest => FeedbackTargetsDraft s op ∧ ValidOps (applyOp s op) rest

/-- A store with one MESSAGE row and one DRAFT row in thread "T": it
satisfies the at-most-one-draft invariant. -/
def cex_store : Store :=
  [ { id := "m1"
      msg_content := "hello"
      type := MessageType.MESSAGE
      thread_name := "T"
      sender_name := "alice"
      agent_id := none },
    { id := "d1"
      msg_content := "old draft"
      type := MessageType.DRAFT
      thread_name := "T"
      sender_name := "Agent"
      agent_id := some "a1" } ]

/-- A store holding a MESSAGE row plus a DRAFT row tagged with agent
"agent-7", plus a further MESSAGE row that arrived after the draft. -/
def c5_store : Store :=
  [ { id := "m1"
      msg_content := "hi"
      type := MessageType.MESSAGE
      thread_name := "T"
      sender_name := "bob"
      agent_id := none },
    { id := "d1"
      msg_content := "old"
      type := MessageType.DRAFT
      thread_name := "T"
      sender_name := "Agent"
      agent_id := some "agent-7" },
    { id := "m2"
      msg_content := "newer message"
      type := MessageType.MESSAGE
      thread_name := "T"
      sender_name := "bob"
      agent_id := none } ]

/-- The apostrophe character as a string, used by several formatted
messages. -/
def sq : String := String.singleton (Char.ofNat 39)

/-- One entry of an assistant message's `tool_calls` list: the Python dict
with keys `id`, `type` (always "function"), and the nested `function` dict
flattened to `name` and `arguments` (a JSON-encoded string). -/
structure ToolCallRec where
  id : String
  type : String
  name : String
  arguments : String
deriving DecidableEq, Repr

/-- A conversation message: the Python dict with keys `role` and `content`,
plus the optional keys `tool_calls` (assistant turns), and `tool_call_id` and
`name` (tool-result turns). -/
structure ChatMsg where
  role : String
  content : String
  tool_calls : List ToolCallRec
  tool_call_id : Option String
  name : Option String
deriving DecidableEq, Repr

/-- A plain role/content message (seed and corrective messages). -/
def mkChat (role content : String) : ChatMsg :=
  { role := role
    content := content
    tool_calls := []
    tool_call_id := none
    name := none }

/-- The outcome of `self.client.call_tool` as observed inside
`execute_tool`: a truthy result whose first element has a `.text` attribute,
any other result (formatted via `str`), a `ClientError` raised by the
provider, or any other exception (transport failure etc.). -/
inductive ToolCallOutcome where
  | textContent (text : String)
  | rawResult (r : String)
  | clientError (e : String)
  | unexpectedError (e : String)
deriving DecidableEq, Repr

/-- Whether the provider outcome is one of the two failure cases. -/
def isErrorOutcome : ToolCallOutcome → Bool
  | ToolCallOutcome.clientError _ => true
  | ToolCallOutcome.unexpectedError _ => true
  | ToolCallOutcome.textContent _ => false
  | ToolCallOutcome.rawResult _ => false

/-- `GenericMCPAgent.execute_tool` (`src/agent.py` lines 117-152) on a
connected client: the call (with `user_id` injected into the arguments) is
wrapped in try/except and every outcome, success or failure, is formatted as
a returned string; no exception escapes. -/
def execute_tool (tool_name : String) (outcome : ToolCallOutcome) : String :=
  match outcome with
  | ToolCallOutcome.textContent t => "✓ " ++ tool_name ++ ": " ++ t
  | ToolCallOutcome.rawResult r => "✓ " ++ tool_name ++ ": " ++ r
  | ToolCallOutcome.clientError e =>
      "✗ " ++ tool_name ++ ": Error calling tool " ++ sq ++ tool_name ++ sq ++ ": " ++ e
  | ToolCallOutcome.unexpectedError e =>
      "✗ " ++ tool_name ++ ": Unexpected error: " ++ e

/-- The decision produced by `_get_llm_decision` (`src/agent.py`): every
return path of that method yields action `complete`, `suggest_draft` or
`call_tool` (also on LLM failure, which falls back to calling the first
tool).  For a `call_tool` action the provider response that `execute_tool`
would observe is carried alongside as part of the oracle. -/
inductive Decision where
  | complete (summary : String)
  | suggestDraft (draft : String)
  | callTool (tool : String) (args : String) (outcome : ToolCallOutcome)
deriving DecidableEq, Repr

/-- One loop iteration as seen from outside: the LLM decision arrives, or an
exception is raised inside the iteration body (caught by the `except` clause
of the loop, which logs and breaks). -/
inductive IterEvent where
  | decide (d : Decision)
  | raiseExc
deriving DecidableEq, Repr

/-- Events on which the loop body stops: a terminal decision or a caught
exception.  An external tool call, known or unknown, continues the loop. -/
def isBreakEvent : IterEvent → Bool
  | IterEvent.raiseExc => true
  | IterEvent.decide (Decision.complete _) => true
  | IterEvent.decide (Decision.suggestDraft _) => true
  | IterEvent.decide (Decision.callTool _ _ _) => false

/-- The JSON object with single key `draft_content` produced by
`json.dumps`; escaping of special characters inside `draft` is elided (no
claim inspects this string). -/
def json_draft_content (draft : String) : String :=
  "\x7b\"draft_content\": \"" ++ draft ++ "\"\x7d"

/-- The assistant message appended when the decision is `suggest_draft`
(`src/agent.py` lines 304-316). -/
def suggest_draft_message (draft : String) : ChatMsg :=
  { role := "assistant"
    content := "I have a draft ready."
    tool_calls := [{ id := "call_suggest_draft"
                     type := "function"
                     name := "suggest_draft"
                     arguments := json_draft_content draft }]
    tool_call_id := none
    name := none }

/-- The assistant message appended before executing a known tool
(`src/agent.py` lines 324-336). -/
def assistant_tool_message (tool args : String) : ChatMsg :=
  { role := "assistant"
    content := "I should call the tool `" ++ tool ++ "` with arguments `" ++ args ++ "`."
    tool_calls := [{ id := "call_" ++ tool
                     type := "function"
                     name := tool
                     arguments := args }]
    tool_call_id := none
    name := none }

/-- The tool-result message appended after executing a known tool
(`src/agent.py` lines 341-347). -/
def tool_result_message (tool result : String) : ChatMsg :=
  { role := "tool"
    content := result
    tool_calls := []
    tool_call_id := some ("call_" ++ tool)
    name := some tool }

/-- The corrective message appended when the model requests an unknown tool
(`src/agent.py` lines 349-355). -/
def unknown_tool_message (tool : String) : ChatMsg :=
  { role := "user"
    content := "Error: You tried to call a tool named " ++ sq ++ tool ++ sq
      ++ " which does not exist."
    tool_calls := []
    tool_call_id := none
    name := none }

/-- The `for iteration in range(max_iterations)` loop of
`run_intelligent_agent` (`src/agent.py` lines 290-363), driven by the
per-iteration oracle: `i` is the current iteration index, `fuel` the number
of remaining iterations.  Returns the final conversation together with the
number of loop-body entries performed.  A terminal decision or a caught
exception breaks; a known tool call appends the assistant message and the
tool result and continues; an unknown tool name appends the corrective user
message and continues. -/
def run_loop (tool_names : List String) (oracle : Nat → IterEvent) :
    Nat → Nat → List ChatMsg → List ChatMsg × Nat
  | _, 0, conv => (conv, 0)
  | i, fuel + 1, conv =>
    match oracle i with
    | IterEvent.raiseExc => (conv, 1)
    | IterEvent.decide (Decision.complete _) => (conv, 1)
    | IterEvent.decide (Decision.suggestDraft d) =>
        (conv ++ [suggest_draft_message d], 1)
    | IterEvent.decide (Decision.callTool tool args outcome) =>
      if tool ∈ tool_names then
        let r := run_loop tool_names oracle (i + 1) fuel
          (conv ++ [assistant_tool_message tool args,
                    tool_result_message tool (execute_tool tool outcome)])
        (r.1, r.2 + 1)
      else
        let r := run_loop tool_names oracle (i + 1) fuel
          (conv ++ [unknown_tool_message tool])
        (r.1, r.2 + 1)

/-- `GenericMCPAgent.run_intelligent_agent` (`src/agent.py` lines 267-366):
with no discovered tools the seed is returned unchanged; an empty seed with
tools raises `ValueError` (modelled as `Except.error`); otherwise the seed is
copied and the bounded loop runs. -/
def run_intelligent_agent (tool_names : List String) (oracle : Nat → IterEvent)
    (messages : List ChatMsg) (max_iterations : Nat) : Except String (List ChatMsg) :=
  if tool_names = [] then Except.ok messages
  else if messages = [] then
    Except.error ("The " ++ sq ++ "messages" ++ sq ++ " list cannot be empty.")
  else Except.ok (run_loop tool_names oracle 0 max_iterations messages).1

/-- Oracle for the C4 witness: `task_completed` at iteration 0,
`suggest_draft` afterwards. -/
def c4_oracle : Nat → IterEvent := fun j =>
  if j = 0 then IterEvent.decide (Decision.complete "done")
  else IterEvent.decide (Decision.suggestDraft "Hi")

/-- Oracle for the C6 witness: the model always requests tool "db", and the
provider rejects the call. -/
def c6_oracle : Nat → IterEvent := fun _ =>
  IterEvent.decide (Decision.callTool "db" "x" (ToolCallOutcome.clientError "boom"))

/-- Oracle for the C8 witness: the model always requests the undiscovered
tool "ghost". -/
def c8_oracle : Nat → IterEvent := fun _ =>
  IterEvent.decide (Decision.callTool "ghost" "a" (ToolCallOutcome.textContent "x"))

/-- Oracle for the C9 witness: one known tool call, then completion. -/
def c9_oracle : Nat → IterEvent := fun j =>
  if j = 0 then IterEvent.decide (Decision.callTool "t" "a" (ToolCallOutcome.textContent "ok"))
  else IterEvent.decide (Decision.complete "done")

/-- A tool descriptor in the aggregate registry: tool name, description, and
the index of the provider it is bound to.  The parameter schema carries no
protocol content and is left out. -/
structure SpecToolDescriptor where
  name : String
  description : String
  provider : Nat
deriving DecidableEq, Repr

/-- Fold step of the aggregate registry: a descriptor whose name is already
present is dropped (first-discovered wins), otherwise it is appended. -/
def dedup_step (acc : List SpecToolDescriptor) (d : SpecToolDescriptor) :
    List SpecToolDescriptor :=
  if acc.any (fun e => e.name == d.name) then acc else acc ++ [d]

/-- Keep the first descriptor of every name, in discovery order. -/
def dedup_by_name (l : List SpecToolDescriptor) : List SpecToolDescriptor :=
  l.foldl dedup_step []

/-- All tools of all providers, in provider order then per-provider listing
order, each tagged with its provider index. -/
def flatten_tools (providers : List (List (String × String))) :
    List SpecToolDescriptor :=
  (providers.enum.map (fun p => p.2.map
    (fun tool => SpecToolDescriptor.mk tool.1 tool.2 p.1))).flatten

/-- Modelled from the spec: the repository's callers construct the agent
over a LIST of MCP clients (`GenericMCPAgent([client], ...)` in
`test_agent.py`; `run_intelligent_agent(mcp_clients=[...], ...)` in
`src/app_services.py`), but the `GenericMCPAgent.__aenter__` present under
`src/` connects to a single `server_url` string; the multi-provider
discovery code those callers rely on is missing from the tree.  Spec §4.1:
"For each provider, lists its tools; if a tool name already exists in the
aggregate set, the first-discovered descriptor wins and the duplicate is
dropped with a warning (no error)." -/
def discover (providers : List (List (String × String))) :
    List SpecToolDescriptor :=
  dedup_by_name (flatten_tools providers)

/-- Branch equation: new MESSAGE-type rows beyond the basis exist, so the
commit step discards as stale and leaves the store unchanged. -/
theorem commit_draft_step_stale (s : Store) (thread_name : String) (basis_ids : List String)
    (draft_id draft_content agent_id : String)
    (h : (get_all_messages_of_thread s thread_name).filter
      (fun m => m.type == MessageType.MESSAGE && !(basis_ids.contains m.id)) ≠ []) :
    commit_draft_step s thread_name basis_ids draft_id draft_content agent_id
      = (CommitOutcome.DiscardedStale, s) := by
  simp only [commit_draft_step]
  rw [if_pos h]

/-- Branch equation: no new messages but the thread already holds a DRAFT row,
so the commit step discards as duplicate and leaves the store unchanged. -/
theorem commit_draft_step_duplicate (s : Store) (thread_name : String) (basis_ids : List String)
    (draft_id draft_content agent_id : String)
    (h1 : (get_all_messages_of_thread s thread_name).filter
      (fun m => m.type == MessageType.MESSAGE && !(basis_ids.contains m.id)) = [])
    (h2 : (get_all_messages_of_thread s thread_name).any
      (fun m => m.type == MessageType.DRAFT) = true) :
    commit_draft_step s thread_name basis_ids draft_id draft_content agent_id
      = (CommitOutcome.DiscardedDuplicate, s) := by
  simp only [commit_draft_step]
  rw [if_neg (not_not_intro h1), if_pos h2]

/-- Branch equation: no new messages and no existing DRAFT row, so the commit
step appends the draft row and reports `Committed`. -/
theorem commit_draft_step_commits (s : Store) (thread_name : String) (basis_ids : List String)
    (draft_id draft_content agent_id : String)
    (h1 : (get_all_messages_of_thread s thread_name).filter
      (fun m => m.type == MessageType.MESSAGE && !(basis_ids.contains m.id)) = [])
    (h2 : (get_all_messages_of_thread s thread_name).any
      (fun m => m.type == MessageType.DRAFT) = false) :
    commit_draft_step s thread_name basis_ids draft_id draft_content agent_id
      = (CommitOutcome.Committed draft_id,
          s ++ [draft_row draft_id draft_content thread_name agent_id]) := by
  simp only [commit_draft_step]
  rw [if_neg (not_not_intro h1), if_neg (by rw [h2]; exact Bool.false_ne_true)]
  rfl

/-- C1: the commit step returns `Committed` (with the draft id) iff no new
MESSAGE-type message arrived beyond the basis and the thread holds no
DRAFT-type row; in both discard cases the Thread Store is left unchanged,
and in the committed case exactly the draft row is appended. -/
theorem commit_if_fresh_iff_no_new_messages_and_no_draft
    (s : Store) (thread_name : String) (basis_ids : List String)
    (draft_id draft_content agent_id : String) :
    let r := commit_draft_step s thread_name basis_ids draft_id draft_content agent_id
    (r.1 = CommitOutcome.Committed draft_id ↔
      (new_message_count s thread_name basis_ids = 0 ∧ has_draft s thread_name = false)) ∧
    ((∀ d, r.1 ≠ CommitOutcome.Committed d) → r.2 = s) ∧
    (r.1 = CommitOutcome.Committed draft_id →
      r.2 = s ++ [draft_row draft_id draft_content thread_name agent_id]) := by
  by_cases hstale :
      ((get_all_messages_of_thread s thread_name).filter
        (fun m => m.type == MessageType.MESSAGE && !(basis_ids.contains m.id))) = []
  · by_cases hdraft :
        (get_all_messages_of_thread s thread_name).any (fun m => m.type == MessageType.DRAFT) = true
    · rw [commit_draft_step_duplicate s thread_name basis_ids draft_id draft_content agent_id
        hstale hdraft]
      refine ⟨?_, fun _ => rfl, ?_⟩
      · constructor
        · intro h; cases h
        · rintro ⟨-, hnod⟩
          rw [has_draft, hdraft] at hnod; cases hnod
      · intro h; cases h
    · have hdraft' :
          (get_all_messages_of_thread s thread_name).any (fun m => m.type == MessageType.DRAFT) = false :=
        Bool.eq_false_iff.mpr hdraft
      rw [commit_draft_step_commits s thread_name basis_ids draft_id draft_content agent_id
        hstale hdraft']
      refine ⟨?_, ?_, fun _ => rfl⟩
      · constructor
        · intro _
          exact ⟨by rw [new_message_count, hstale]; rfl, by rw [has_draft]; exact hdraft'⟩
        · intro _; rfl
      · intro hall
        exact absurd rfl (hall draft_id)
  · rw [commit_draft_step_stale s thread_name basis_ids draft_id draft_content agent_id hstale]
    refine ⟨?_, fun _ => rfl, ?_⟩
    · constructor
      · intro h; cases h
      · rintro ⟨hlen, -⟩
        rw [new_message_count] at hlen
        exact absurd (List.length_eq_zero.mp hlen) hstale
    · intro h; cases h

/-- A successful `get_message` lookup returns a row of the store carrying the
requested id. -/
theorem get_message_spec (s : Store) (message_id : String) (m : Message)
    (h : get_message s message_id = some m) : m ∈ s ∧ m.id = message_id := by
  have hmem : m ∈ s.filter (fun x => x.id == message_id) :=
    List.mem_of_mem_head? (by rw [get_message] at h; rw [h]; rfl)
  have h2 := List.mem_filter.mp hmem
  exact ⟨h2.1, by simpa using h2.2⟩

/-- Removing a message never increases the draft count of any thread. -/
theorem draft_count_remove_le (s : Store) (message_id t : String) :
    draft_count (remove_message s message_id) t ≤ draft_count s t :=
  (List.Sublist.filter _ (List.filter_sublist s)).length_le

/-- The draft count of any single thread is bounded by the total number of
DRAFT rows. -/
theorem draft_count_le_total (s : Store) (t : String) :
    draft_count s t ≤ (s.filter (fun m => m.type == MessageType.DRAFT)).length := by
  induction s with
  | nil => exact le_rfl
  | cons a s ih =>
    by_cases h1 : (a.type == MessageType.DRAFT) = true
    · by_cases h2 : (a.thread_name == t) = true
      · simpa [draft_count, List.filter_cons, h1, h2] using Nat.succ_le_succ ih
      · simpa [draft_count, List.filter_cons, h1, h2] using Nat.le_succ_of_le ih
    · simpa [draft_count, List.filter_cons, h1] using ih

/-- Appending a MESSAGE-type row leaves every draft count unchanged. -/
theorem draft_count_add_message_row (s : Store) (m : Message) (t : String)
    (h : m.type = MessageType.MESSAGE) :
    draft_count (add_message s m) t = draft_count s t := by
  simp [draft_count, add_message, List.filter_append, h]

/-- Appending a DRAFT-type row raises the draft count of its own thread by one
and leaves every other thread unchanged. -/
theorem draft_count_add_draft_row (s : Store) (m : Message) (t : String)
    (h : m.type = MessageType.DRAFT) :
    draft_count (add_message s m) t
      = draft_count s t + (if m.thread_name = t then 1 else 0) := by
  by_cases ht : m.thread_name = t <;>
    simp [draft_count, add_message, List.filter_append, h, ht]

/-- A row surviving the draft-deletion fold was already in the store and
its id differs from every deleted id. -/
theorem mem_foldl_remove (l : List Message) (s : Store) (x : Message)
    (hx : x ∈ l.foldl (fun acc d => remove_message acc d.id) s) :
    x ∈ s ∧ ∀ d ∈ l, x.id ≠ d.id := by
  induction l generalizing s with
  | nil => exact ⟨hx, by simp⟩
  | cons d0 rest ih =>
    obtain ⟨hx1, hx2⟩ := ih (remove_message s d0.id) hx
    have hm := List.mem_filter.mp hx1
    refine ⟨hm.1, ?_⟩
    intro d hd
    rcases List.mem_cons.mp hd with heq | hd'
    · rw [heq]; simpa using hm.2
    · exact hx2 d hd'

/-- The draft-deletion fold never increases the draft count of any thread. -/
theorem draft_count_foldl_remove_le (l : List Message) (s : Store) (t : String) :
    draft_count (l.foldl (fun acc d => remove_message acc d.id) s) t
      ≤ draft_count s t := by
  induction l generalizing s with
  | nil => exact le_rfl
  | cons d0 rest ih =>
    exact le_trans (ih (remove_message s d0.id)) (draft_count_remove_le s d0.id t)

/-- After deleting every DRAFT row of the thread (step 2 of
`process_thread_and_create_draft`), the thread holds no drafts. -/
theorem draft_count_after_delete_drafts (s : Store) (t : String) :
    draft_count (((get_all_messages_of_thread s t).filter
      (fun m => m.type == MessageType.DRAFT)).foldl
        (fun acc d => remove_message acc d.id) s) t = 0 := by
  rw [draft_count, List.length_eq_zero, List.filter_eq_nil_iff]
  intro x hx hpred
  obtain ⟨hxs, hids⟩ := mem_foldl_remove _ s x hx
  rw [Bool.and_eq_true] at hpred
  have hxd : x ∈ (get_all_messages_of_thread s t).filter
      (fun m => m.type == MessageType.DRAFT) :=
    List.mem_filter.mpr ⟨List.mem_filter.mpr ⟨hxs, hpred.2⟩, hpred.1⟩
  exact hids x hxd rfl

/-- A thread whose fetched rows contain no DRAFT has draft count zero. -/
theorem draft_count_eq_zero_of_no_draft (s : Store) (t : String)
    (h : (get_all_messages_of_thread s t).any
      (fun m => m.type == MessageType.DRAFT) = false) :
    draft_count s t = 0 := by
  rw [draft_count, List.length_eq_zero, List.filter_eq_nil_iff]
  intro x hx hpred
  rw [Bool.and_eq_true] at hpred
  have hxt : x ∈ get_all_messages_of_thread s t := List.mem_filter.mpr ⟨hx, hpred.2⟩
  exact List.any_eq_false.mp h x hxt hpred.1

/-- The commit step preserves the at-most-one-draft invariant. -/
theorem commit_draft_step_preserves_invariant (s : Store) (t : String)
    (basis : List String) (did dc aid : String)
    (hinv : AtMostOneDraftPerThread s) :
    AtMostOneDraftPerThread (commit_draft_step s t basis did dc aid).2 := by
  by_cases hstale : ((get_all_messages_of_thread s t).filter
      (fun m => m.type == MessageType.MESSAGE && !(basis.contains m.id))) = []
  · by_cases hdraft : (get_all_messages_of_thread s t).any
        (fun m => m.type == MessageType.DRAFT) = true
    · rw [commit_draft_step_duplicate s t basis did dc aid hstale hdraft]
      exact hinv
    · have hdraft' := Bool.eq_false_iff.mpr hdraft
      rw [commit_draft_step_commits s t basis did dc aid hstale hdraft']
      intro u
      have hz := draft_count_eq_zero_of_no_draft s t hdraft'
      have hrow : (draft_row did dc t aid).type = MessageType.DRAFT := rfl
      have := draft_count_add_draft_row s (draft_row did dc t aid) u hrow
      rw [add_message] at this
      rw [this]
      by_cases hu : (draft_row did dc t aid).thread_name = u
      · have hut : t = u := hu
        rw [if_pos hu, ← hut, hz]
      · rw [if_neg hu]
        simpa using hinv u
  · rw [commit_draft_step_stale s t basis did dc aid hstale]
    exact hinv

/-- Inserting the new request messages (all MESSAGE-type rows) leaves every
draft count unchanged. -/
theorem draft_count_foldl_add_messages (l : List APIMessage) (s : Store) (t u : String) :
    draft_count (l.foldl (fun acc m => add_message acc
      { id := m.message_id
        msg_content := m.message_content
        type := MessageType.MESSAGE
        thread_name := t
        sender_name := m.sender_name
        agent_id := none }) s) u = draft_count s u := by
  induction l generalizing s with
  | nil => rfl
  | cons a rest ih =>
    rw [List.foldl_cons, ih]
    exact draft_count_add_message_row s _ u rfl

/-- `process_thread_and_create_draft` preserves the at-most-one-draft
invariant, for every oracle outcome. -/
theorem process_thread_preserves_invariant (s : Store) (t : String)
    (rm : List APIMessage) (ad : Option String) (did aid : String)
    (hinv : AtMostOneDraftPerThread s) :
    AtMostOneDraftPerThread (process_thread_and_create_draft s t rm ad did aid).2 := by
  rw [process_thread_and_create_draft]
  by_cases hnew : rm.filter
      (fun m => !(((get_all_messages_of_thread s t).map (fun m => m.id)).contains m.message_id)) = []
  · rw [if_pos hnew]
    exact hinv
  · rw [if_neg hnew]
    have hinv2 : AtMostOneDraftPerThread ((rm.filter
        (fun m => !(((get_all_messages_of_thread s t).map (fun m => m.id)).contains m.message_id))).foldl
        (fun acc m => add_message acc
          { id := m.message_id
            msg_content := m.message_content
            type := MessageType.MESSAGE
            thread_name := t
            sender_name := m.sender_name
            agent_id := none })
        (((get_all_messages_of_thread s t).filter
          (fun m => m.type == MessageType.DRAFT)).foldl
            (fun acc d => remove_message acc d.id) s)) := by
      intro u
      rw [draft_count_foldl_add_messages]
      exact le_trans (draft_count_foldl_remove_le _ s u) (hinv u)
    cases ad with
    | none => exact hinv2
    | some dc =>
      exact commit_draft_step_preserves_invariant _ t _ did dc aid hinv2

/-- Removing the unique DRAFT row of its thread leaves that thread with no
drafts. -/
theorem draft_count_remove_target_zero (s : Store) (old : Message)
    (hmem : old ∈ s) (hty : old.type = MessageType.DRAFT)
    (hinv : AtMostOneDraftPerThread s) :
    draft_count (remove_message s old.id) old.thread_name = 0 := by
  rw [draft_count, List.length_eq_zero, List.filter_eq_nil_iff]
  intro x hx hpred
  have hxs := List.mem_filter.mp hx
  have hxid : x.id ≠ old.id := by simpa using hxs.2
  have hF : old ∈ s.filter
      (fun m => m.type == MessageType.DRAFT && m.thread_name == old.thread_name) :=
    List.mem_filter.mpr ⟨hmem, by simp [hty]⟩
  have hxF : x ∈ s.filter
      (fun m => m.type == MessageType.DRAFT && m.thread_name == old.thread_name) :=
    List.mem_filter.mpr ⟨hxs.1, hpred⟩
  have hlen := hinv old.thread_name
  rw [draft_count] at hlen
  have h1 : 1 ≤ (s.filter
      (fun m => m.type == MessageType.DRAFT && m.thread_name == old.thread_name)).length :=
    List.length_pos.mpr (List.ne_nil_of_mem hF)
  obtain ⟨b, hb⟩ := List.length_eq_one.mp (le_antisymm hlen h1)
  rw [hb] at hF hxF
  rcases List.mem_singleton.mp hF with rfl
  rcases List.mem_singleton.mp hxF with rfl
  exact hxid rfl

/-- Equation: a feedback run that found the target row and produced a
revision deletes the old row and inserts the new DRAFT row, carrying the
agent id of the old row when that id is present and non-empty. -/
theorem create_revised_draft_eq (s : Store) (dmid c nid fid : String) (old : Message)
    (hg : get_message s dmid = some old) :
    create_revised_draft_from_feedback s dmid (some c) nid fid
      = (some nid, add_message (remove_message s dmid)
          { id := nid
            msg_content := c
            type := MessageType.DRAFT
            thread_name := old.thread_name
            sender_name := "Agent"
            agent_id := some (match old.agent_id with
              | some a => if a = "" then fid else a
              | none => fid) }) := by
  rw [create_revised_draft_from_feedback, hg]

/-- `create_revised_draft_from_feedback` preserves the at-most-one-draft
invariant whenever the id it is invoked with names a DRAFT-type row. -/
theorem feedback_preserves_invariant (s : Store) (dmid : String)
    (rc : Option String) (nid fid : String)
    (hinv : AtMostOneDraftPerThread s)
    (hvalid : ∀ m, get_message s dmid = some m → m.type = MessageType.DRAFT) :
    AtMostOneDraftPerThread (create_revised_draft_from_feedback s dmid rc nid fid).2 := by
  cases hg : get_message s dmid with
  | none =>
    rw [create_revised_draft_from_feedback, hg]
    cases rc with
    | none => exact hinv
    | some c => exact hinv
  | some old =>
    cases rc with
    | none =>
      rw [create_revised_draft_from_feedback, hg]
      exact hinv
    | some c =>
      rw [create_revised_draft_eq s dmid c nid fid old hg]
      obtain ⟨hmem, hid⟩ := get_message_spec s dmid old hg
      have hty := hvalid old hg
      intro u
      rw [draft_count_add_draft_row _ _ u rfl]
      show draft_count (remove_message s dmid) u
        + (if old.thread_name = u then 1 else 0) ≤ 1
      by_cases hu : old.thread_name = u
      · have h0 : draft_count (remove_message s dmid) u = 0 := by
          rw [← hid, ← hu]
          exact draft_count_remove_target_zero s old hmem hty hinv
        rw [if_pos hu, h0]
      · rw [if_neg hu]
        have := le_trans (draft_count_remove_le s dmid u) (hinv u)
        omega

/-- C2 counterexample: the at-most-one-draft invariant, as stated over the
raw operations, is violated by a single feedback-revision call whose
`draft_message_id` names a MESSAGE-type row of a thread that already holds a
draft: the code looks the row up without checking its type, deletes it and
inserts a second DRAFT row for the same thread. -/
theorem at_most_one_draft_violated_by_feedback_on_message_id :
    AtMostOneDraftPerThread cex_store ∧
    ¬ AtMostOneDraftPerThread
      (applyOps cex_store [StoreOp.feedback "m1" (some "revised") "d2" "fa"]) := by
  constructor
  · intro t
    exact le_trans (draft_count_le_total cex_store t) (by decide)
  · intro h
    have h1 := h "T"
    have h2 : draft_count
        (applyOps cex_store [StoreOp.feedback "m1" (some "revised") "d2" "fa"]) "T" = 2 := by
      decide
    omega

/-- C2 (amended): starting from a store satisfying the at-most-one-draft
invariant, every sequential interleaving of the thread-processing,
feedback-revision and draft-deletion operations preserves the invariant,
provided each feedback invocation names a DRAFT-type row of the store it
executes against.  (As literally stated the claim fails: the code never
checks the type of `draft_message_id`; see the counterexample.) -/
theorem at_most_one_draft_invariant (s : Store) (ops : List StoreOp)
    (hinv : AtMostOneDraftPerThread s) (hvalid : ValidOps s ops) :
    AtMostOneDraftPerThread (applyOps s ops) := by
  induction ops generalizing s with
  | nil => exact hinv
  | cons op rest ih =>
    obtain ⟨hv1, hv2⟩ := hvalid
    refine ih (applyOp s op) ?_ hv2
    cases op with
    | processThread t rm ad did aid =>
      exact process_thread_preserves_invariant s t rm ad did aid hinv
    | feedback dmid rc nid fid =>
      exact feedback_preserves_invariant s dmid rc nid fid hinv hv1
    | deleteDraft dmid =>
      intro u
      exact le_trans (draft_count_remove_le s dmid u) (hinv u)

/-- Witness for the amended invariant theorem at a concrete store and
operation sequence. -/
theorem at_most_one_draft_invariant_witness :
    AtMostOneDraftPerThread
      (applyOps [] [StoreOp.feedback "d1" (some "c") "d2" "a2"]) :=
  at_most_one_draft_invariant [] [StoreOp.feedback "d1" (some "c") "d2" "a2"]
    (fun _ => Nat.zero_le 1)
    ⟨fun _ h => Option.noConfusion h, trivial⟩

/-- C5: when the revision agent terminates with a draft, the feedback path
deletes the old row and inserts the new DRAFT row against an arbitrary
current store — no condition on the thread's message set is checked — and
the new row carries the agent id of the old draft. -/
theorem feedback_revision_unconditional_same_agent_id
    (s : Store) (dmid content nid fid a : String) (old : Message)
    (hg : get_message s dmid = some old)
    (ha : old.agent_id = some a) (hne : a ≠ "") :
    create_revised_draft_from_feedback s dmid (some content) nid fid
      = (some nid, add_message (remove_message s dmid)
          { id := nid
            msg_content := content
            type := MessageType.DRAFT
            thread_name := old.thread_name
            sender_name := "Agent"
            agent_id := some a }) := by
  rw [create_revised_draft_eq s dmid content nid fid old hg]
  simp [ha, hne]

/-- Witness for C5 at a concrete store in which a newer message (m2) arrived
after the draft: the revision is still committed. -/
theorem feedback_revision_unconditional_same_agent_id_witness :
    create_revised_draft_from_feedback c5_store "d1" (some "new text") "d9" "fresh"
      = (some "d9", add_message (remove_message c5_store "d1")
          { id := "d9"
            msg_content := "new text"
            type := MessageType.DRAFT
            thread_name := "T"
            sender_name := "Agent"
            agent_id := some "agent-7" }) :=
  feedback_revision_unconditional_same_agent_id c5_store "d1" "new text" "d9" "fresh"
    "agent-7"
    { id := "d1"
      msg_content := "old"
      type := MessageType.DRAFT
      thread_name := "T"
      sender_name := "Agent"
      agent_id := some "agent-7" }
    (by decide) rfl (by decide)

/-- The loop never performs more iterations than its fuel. -/
theorem run_loop_count_le (tool_names : List String) (oracle : Nat → IterEvent) :
    ∀ fuel i conv, (run_loop tool_names oracle i fuel conv).2 ≤ fuel := by
  intro fuel
  induction fuel with
  | zero => intro i conv; exact le_rfl
  | succ n ih =>
    intro i conv
    rw [run_loop]
    cases oracle i with
    | raiseExc => exact Nat.succ_le_succ (Nat.zero_le n)
    | decide d =>
      cases d with
      | complete s => exact Nat.succ_le_succ (Nat.zero_le n)
      | suggestDraft dr => exact Nat.succ_le_succ (Nat.zero_le n)
      | callTool tool args outcome =>
        by_cases ht : tool ∈ tool_names
        · simp only [if_pos ht]
          exact Nat.succ_le_succ (ih (i + 1) _)
        · simp only [if_neg ht]
          exact Nat.succ_le_succ (ih (i + 1) _)

/-- If no break event occurs in the window, the loop runs for exactly its
fuel. -/
theorem run_loop_full_of_no_break (tool_names : List String) (oracle : Nat → IterEvent) :
    ∀ fuel i conv, (∀ j, j < fuel → isBreakEvent (oracle (i + j)) = false) →
      (run_loop tool_names oracle i fuel conv).2 = fuel := by
  intro fuel
  induction fuel with
  | zero => intro i conv _; rfl
  | succ n ih =>
    intro i conv h
    have h0 : isBreakEvent (oracle i) = false := by
      have := h 0 (Nat.succ_pos n)
      simpa using this
    rw [run_loop]
    cases he : oracle i with
    | raiseExc => rw [he] at h0; cases h0
    | decide d =>
      cases d with
      | complete s => rw [he] at h0; cases h0
      | suggestDraft dr => rw [he] at h0; cases h0
      | callTool tool args outcome =>
        have hrest : ∀ j, j < n → isBreakEvent (oracle (i + 1 + j)) = false := by
          intro j hj
          have := h (j + 1) (Nat.succ_lt_succ hj)
          rw [show i + (j + 1) = i + 1 + j by omega] at this
          exact this
        by_cases ht : tool ∈ tool_names
        · simp only [if_pos ht]
          show (run_loop tool_names oracle (i + 1) n _).2 + 1 = n + 1
          rw [ih (i + 1) _ hrest]
        · simp only [if_neg ht]
          show (run_loop tool_names oracle (i + 1) n _).2 + 1 = n + 1
          rw [ih (i + 1) _ hrest]

/-- The loop only ever appends to the conversation it is given. -/
theorem run_loop_append_only (tool_names : List String) (oracle : Nat → IterEvent) :
    ∀ fuel i conv, ∃ tail,
      (run_loop tool_names oracle i fuel conv).1 = conv ++ tail := by
  intro fuel
  induction fuel with
  | zero => intro i conv; exact ⟨[], (List.append_nil conv).symm⟩
  | succ n ih =>
    intro i conv
    rw [run_loop]
    cases oracle i with
    | raiseExc => exact ⟨[], (List.append_nil conv).symm⟩
    | decide d =>
      cases d with
      | complete s => exact ⟨[], (List.append_nil conv).symm⟩
      | suggestDraft dr => exact ⟨[suggest_draft_message dr], rfl⟩
      | callTool tool args outcome =>
        by_cases ht : tool ∈ tool_names
        · simp only [if_pos ht]
          obtain ⟨t, htl⟩ := ih (i + 1)
            (conv ++ [assistant_tool_message tool args,
                      tool_result_message tool (execute_tool tool outcome)])
          exact ⟨[assistant_tool_message tool args,
                  tool_result_message tool (execute_tool tool outcome)] ++ t,
            by rw [← List.append_assoc]; exact htl⟩
        · simp only [if_neg ht]
          obtain ⟨t, htl⟩ := ih (i + 1) (conv ++ [unknown_tool_message tool])
          exact ⟨[unknown_tool_message tool] ++ t,
            by rw [← List.append_assoc]; exact htl⟩

/-- C3: the loop performs at most `max_iterations` iterations; it stops
earlier only when some iteration hits a loop-ending event (a terminal
decision or a caught exception); and whenever the entry checks pass the run
returns the loop conversation normally (`Except.ok`) — exhausting the bound
is a soft-fail, not an exception. -/
theorem agent_loop_bounded_by_max_iterations
    (tool_names : List String) (oracle : Nat → IterEvent)
    (messages : List ChatMsg) (max_iterations : Nat) :
    (run_loop tool_names oracle 0 max_iterations messages).2 ≤ max_iterations ∧
    ((run_loop tool_names oracle 0 max_iterations messages).2 < max_iterations →
      ∃ j, j < max_iterations ∧ isBreakEvent (oracle j) = true) ∧
    (tool_names ≠ [] → messages ≠ [] →
      run_intelligent_agent tool_names oracle messages max_iterations
        = Except.ok (run_loop tool_names oracle 0 max_iterations messages).1) := by
  refine ⟨run_loop_count_le tool_names oracle max_iterations 0 messages, ?_, ?_⟩
  · intro hlt
    by_contra hno
    push_neg at hno
    have hfull : ∀ j, j < max_iterations → isBreakEvent (oracle (0 + j)) = false := by
      intro j hj
      rw [Nat.zero_add]
      have := hno j hj
      revert this
      cases isBreakEvent (oracle j) <;> simp
    rw [run_loop_full_of_no_break tool_names oracle max_iterations 0 messages hfull] at hlt
    exact lt_irrefl _ hlt
  · intro h1 h2
    rw [run_intelligent_agent, if_neg h1, if_neg h2]

/-- Witness for C3 at a concrete oracle that never breaks: the loop runs
exactly the cap and returns normally. -/
theorem agent_loop_bounded_by_max_iterations_witness :
    (run_loop ["t"] (fun _ => IterEvent.decide
      (Decision.callTool "t" "a" (ToolCallOutcome.textContent "ok"))) 0 3
      [mkChat "user" "hi"]).2 ≤ 3 ∧
    ((run_loop ["t"] (fun _ => IterEvent.decide
      (Decision.callTool "t" "a" (ToolCallOutcome.textContent "ok"))) 0 3
      [mkChat "user" "hi"]).2 < 3 →
      ∃ j, j < 3 ∧ isBreakEvent ((fun _ => IterEvent.decide
        (Decision.callTool "t" "a" (ToolCallOutcome.textContent "ok"))) j) = true) ∧
    ((["t"] : List String) ≠ [] → ([mkChat "user" "hi"] : List ChatMsg) ≠ [] →
      run_intelligent_agent ["t"] (fun _ => IterEvent.decide
        (Decision.callTool "t" "a" (ToolCallOutcome.textContent "ok")))
        [mkChat "user" "hi"] 3
        = Except.ok (run_loop ["t"] (fun _ => IterEvent.decide
            (Decision.callTool "t" "a" (ToolCallOutcome.textContent "ok"))) 0 3
            [mkChat "user" "hi"]).1) :=
  agent_loop_bounded_by_max_iterations ["t"]
    (fun _ => IterEvent.decide (Decision.callTool "t" "a" (ToolCallOutcome.textContent "ok")))
    [mkChat "user" "hi"] 3

/-- C4 counterexample: seed of one user message "ping", first decision is
`task_completed` — the loop breaks WITHOUT appending the assistant tool-call
message, so the returned transcript is the seed itself, of length 1, not 2. -/
theorem task_completed_transcript_counterexample :
    run_intelligent_agent ["some_tool"]
      (fun _ => IterEvent.decide (Decision.complete "done"))
      [mkChat "user" "ping"] 15
      = Except.ok [mkChat "user" "ping"] ∧
    ([mkChat "user" "ping"] : List ChatMsg).length ≠ 2 :=
  ⟨rfl, by decide⟩

/-- C4 (amended): a `suggest_draft` decision appends exactly the assistant
tool-call message and stops the loop; a `task_completed` decision stops the
loop without appending anything (its summary is only logged); neither is
dispatched as a tool call (no tool-result message appears, and the outcome
is independent of any provider response, which only `call_tool` events
carry).  For a non-empty seed whose first decision is `task_completed`, the
run returns the seed unchanged. -/
theorem terminal_decision_handling
    (tool_names : List String) (oracle : Nat → IterEvent)
    (i fuel : Nat) (conv : List ChatMsg) (s d : String) :
    (oracle i = IterEvent.decide (Decision.complete s) →
      run_loop tool_names oracle i (fuel + 1) conv = (conv, 1)) ∧
    (oracle i = IterEvent.decide (Decision.suggestDraft d) →
      run_loop tool_names oracle i (fuel + 1) conv
        = (conv ++ [suggest_draft_message d], 1)) ∧
    (∀ msgs : List ChatMsg, tool_names ≠ [] → msgs ≠ [] →
      oracle 0 = IterEvent.decide (Decision.complete s) →
      run_intelligent_agent tool_names oracle msgs (fuel + 1) = Except.ok msgs) := by
  refine ⟨?_, ?_, ?_⟩
  · intro h; rw [run_loop, h]
  · intro h; rw [run_loop, h]
  · intro msgs h1 h2 h3
    rw [run_intelligent_agent, if_neg h1, if_neg h2, run_loop, h3]

/-- Witness for the amended C4 at concrete inputs: the `suggest_draft`
branch appends the draft message and stops, and a first-decision
`task_completed` run returns the seed unchanged. -/
theorem terminal_decision_handling_witness :
    run_loop ["t"] c4_oracle 1 5 [mkChat "user" "seed"]
      = ([mkChat "user" "seed"] ++ [suggest_draft_message "Hi"], 1) ∧
    run_intelligent_agent ["t"] c4_oracle [mkChat "user" "ping"] 5
      = Except.ok [mkChat "user" "ping"] :=
  ⟨(terminal_decision_handling ["t"] c4_oracle 1 4 [mkChat "user" "seed"] "done" "Hi").2.1 rfl,
   (terminal_decision_handling ["t"] c4_oracle 0 4 [] "done" "Hi").2.2
     [mkChat "user" "ping"] (by decide) (by decide) rfl⟩

/-- C6: dispatching a requested tool through the dispatcher on a connected
client always yields a string — prefixed "✓ " on provider success and "✗ "
on provider rejection (`ClientError`) or transport failure (any other
exception) — never an escaping exception, and the loop appends the outcome
(including errors) as a tool-result message and keeps iterating. -/
theorem tool_dispatch_error_containment
    (tool_names : List String) (oracle : Nat → IterEvent)
    (i fuel : Nat) (conv : List ChatMsg) (tool args : String)
    (outcome : ToolCallOutcome)
    (hev : oracle i = IterEvent.decide (Decision.callTool tool args outcome))
    (hmem : tool ∈ tool_names) :
    (∃ rest, execute_tool tool outcome
      = (if isErrorOutcome outcome then "✗ " else "✓ ") ++ rest) ∧
    run_loop tool_names oracle i (fuel + 1) conv
      = ((run_loop tool_names oracle (i + 1) fuel
            (conv ++ [assistant_tool_message tool args,
                      tool_result_message tool (execute_tool tool outcome)])).1,
         (run_loop tool_names oracle (i + 1) fuel
            (conv ++ [assistant_tool_message tool args,
                      tool_result_message tool (execute_tool tool outcome)])).2 + 1) := by
  constructor
  · cases outcome with
    | textContent t => exact ⟨tool ++ ": " ++ t, rfl⟩
    | rawResult r => exact ⟨tool ++ ": " ++ r, rfl⟩
    | clientError e =>
        exact ⟨tool ++ ": Error calling tool " ++ sq ++ tool ++ sq ++ ": " ++ e, rfl⟩
    | unexpectedError e => exact ⟨tool ++ ": Unexpected error: " ++ e, rfl⟩
  · rw [run_loop, hev]
    simp only [if_pos hmem]

/-- Witness for C6 at a concrete rejected call: the error is formatted with
the "✗ " marker, appended as a tool-result message, and the loop goes on. -/
theorem tool_dispatch_error_containment_witness :
    (∃ rest, execute_tool "db" (ToolCallOutcome.clientError "boom")
      = (if isErrorOutcome (ToolCallOutcome.clientError "boom") then "✗ " else "✓ ") ++ rest) ∧
    run_loop ["db"] c6_oracle 0 1 []
      = ((run_loop ["db"] c6_oracle 1 0
            ([] ++ [assistant_tool_message "db" "x",
                    tool_result_message "db"
                      (execute_tool "db" (ToolCallOutcome.clientError "boom"))])).1,
         (run_loop ["db"] c6_oracle 1 0
            ([] ++ [assistant_tool_message "db" "x",
                    tool_result_message "db"
                      (execute_tool "db" (ToolCallOutcome.clientError "boom"))])).2 + 1) :=
  tool_dispatch_error_containment ["db"] c6_oracle 0 0 [] "db" "x"
    (ToolCallOutcome.clientError "boom") rfl (by decide)

/-- C8: when every decision requests a tool outside the discovered set, each
loop body appends exactly the corrective user-role message and continues:
the run never crashes, never terminates early, performs the full iteration
cap and returns the conversation extended by one corrective message per
iteration. -/
theorem unknown_tool_recovery
    (tool_names : List String) (oracle : Nat → IterEvent)
    (T A : Nat → String) (O : Nat → ToolCallOutcome)
    (hall : ∀ j, oracle j = IterEvent.decide (Decision.callTool (T j) (A j) (O j)))
    (hunk : ∀ j, T j ∉ tool_names) :
    ∀ fuel i conv, run_loop tool_names oracle i fuel conv
      = (conv ++ (List.range fuel).map (fun k => unknown_tool_message (T (i + k))),
         fuel) := by
  intro fuel
  induction fuel with
  | zero => intro i conv; simp [run_loop]
  | succ n ih =>
    intro i conv
    rw [run_loop, hall i]
    simp only [if_neg (hunk i)]
    rw [ih (i + 1) (conv ++ [unknown_tool_message (T i)])]
    have hmaps : (List.range (n + 1)).map (fun k => unknown_tool_message (T (i + k)))
        = unknown_tool_message (T i)
          :: (List.range n).map (fun k => unknown_tool_message (T (i + 1 + k))) := by
      rw [List.range_succ_eq_map, List.map_cons, List.map_map]
      refine congrArg₂ _ (by rw [Nat.add_zero]) ?_
      refine List.map_congr_left ?_
      intro k _
      have : i + (k + 1) = i + 1 + k := by omega
      simp [Function.comp, Nat.succ_eq_add_one, this]
    rw [hmaps, List.append_assoc]
    rfl

/-- Witness for C8 at concrete inputs: two iterations, two corrective
messages, full cap reached. -/
theorem unknown_tool_recovery_witness :
    run_loop ["t"] c8_oracle 0 2 [mkChat "user" "q"]
      = ([mkChat "user" "q"]
          ++ [unknown_tool_message "ghost", unknown_tool_message "ghost"], 2) :=
  unknown_tool_recovery ["t"] c8_oracle (fun _ => "ghost") (fun _ => "a")
    (fun _ => ToolCallOutcome.textContent "x") (fun _ => rfl)
    (fun _ => show "ghost" ∉ ["t"] by decide)
    2 0 [mkChat "user" "q"]

/-- C9: a successful run returns a transcript that starts with the seed
conversation, unchanged and in order — messages are only appended (the
Python code also copies the caller's list before mutating, which the pure
embedding renders automatically). -/
theorem conversation_seed_is_prefix
    (tool_names : List String) (oracle : Nat → IterEvent)
    (messages result : List ChatMsg) (max_iterations : Nat)
    (h : run_intelligent_agent tool_names oracle messages max_iterations
      = Except.ok result) :
    ∃ tail, result = messages ++ tail := by
  rw [run_intelligent_agent] at h
  by_cases h1 : tool_names = []
  · rw [if_pos h1] at h
    injection h with h
    exact ⟨[], by rw [← h, List.append_nil]⟩
  · rw [if_neg h1] at h
    by_cases h2 : messages = []
    · rw [if_pos h2] at h
      cases h
    · rw [if_neg h2] at h
      injection h with h
      obtain ⟨t, ht⟩ := run_loop_append_only tool_names oracle max_iterations 0 messages
      exact ⟨t, by rw [← h, ht]⟩

/-- Witness for C9 at a concrete two-iteration run. -/
theorem conversation_seed_is_prefix_witness :
    ∃ tail, [mkChat "user" "hi", assistant_tool_message "t" "a",
             tool_result_message "t" (execute_tool "t" (ToolCallOutcome.textContent "ok"))]
      = [mkChat "user" "hi"] ++ tail :=
  conversation_seed_is_prefix ["t"] c9_oracle [mkChat "user" "hi"]
    [mkChat "user" "hi", assistant_tool_message "t" "a",
     tool_result_message "t" (execute_tool "t" (ToolCallOutcome.textContent "ok"))]
    3 rfl

/-- C10: the run raises (returns `Except.error`) iff tools were discovered
and the seed list is empty; with no discovered tools the seed is returned
unchanged; and an exception raised inside an iteration body is caught, ends
the loop, and the conversation accumulated so far is returned. -/
theorem run_entry_and_exception_behavior
    (tool_names : List String) (oracle : Nat → IterEvent)
    (messages : List ChatMsg) (max_iterations : Nat) :
    ((∃ e, run_intelligent_agent tool_names oracle messages max_iterations
        = Except.error e) ↔ (tool_names ≠ [] ∧ messages = [])) ∧
    (tool_names = [] →
      run_intelligent_agent tool_names oracle messages max_iterations
        = Except.ok messages) ∧
    (∀ i fuel conv, oracle i = IterEvent.raiseExc →
      run_loop tool_names oracle i (fuel + 1) conv = (conv, 1)) := by
  refine ⟨?_, ?_, ?_⟩
  · constructor
    · rintro ⟨e, he⟩
      by_cases h1 : tool_names = []
      · rw [run_intelligent_agent, if_pos h1] at he
        cases he
      · refine ⟨h1, ?_⟩
        by_cases h2 : messages = []
        · exact h2
        · rw [run_intelligent_agent, if_neg h1, if_neg h2] at he
          cases he
    · rintro ⟨h1, h2⟩
      exact ⟨_, by rw [run_intelligent_agent, if_neg h1, if_pos h2]⟩
  · intro h1
    rw [run_intelligent_agent, if_pos h1]
  · intro i fuel conv h
    rw [run_loop, h]

/-- Witness for C10: with one discovered tool and an empty seed the run
raises; the raising-iteration equation holds at a concrete oracle. -/
theorem run_entry_and_exception_behavior_witness :
    ((∃ e, run_intelligent_agent ["t"] (fun _ => IterEvent.raiseExc) [] 5
        = Except.error e) ↔ ((["t"] : List String) ≠ [] ∧ ([] : List ChatMsg) = [])) ∧
    ((["t"] : List String) = [] →
      run_intelligent_agent ["t"] (fun _ => IterEvent.raiseExc) [] 5
        = Except.ok []) ∧
    (∀ i fuel conv, (fun _ => IterEvent.raiseExc) i = IterEvent.raiseExc →
      run_loop ["t"] (fun _ => IterEvent.raiseExc) i (fuel + 1) conv = (conv, 1)) :=
  run_entry_and_exception_behavior ["t"] (fun _ => IterEvent.raiseExc) [] 5

/-- The dedup fold only ever appends to its accumulator. -/
theorem foldl_dedup_step_append (l : List SpecToolDescriptor) :
    ∀ acc, ∃ t, l.foldl dedup_step acc = acc ++ t := by
  induction l with
  | nil => intro acc; exact ⟨[], (List.append_nil acc).symm⟩
  | cons d rest ih =>
    intro acc
    rw [List.foldl_cons]
    by_cases hany : (acc.any (fun e => e.name == d.name)) = true
    · obtain ⟨t, ht⟩ := ih acc
      rw [show dedup_step acc d = acc from by rw [dedup_step, if_pos hany]]
      exact ⟨t, ht⟩
    · obtain ⟨t, ht⟩ := ih (acc ++ [d])
      rw [show dedup_step acc d = acc ++ [d] from by rw [dedup_step, if_neg hany]]
      exact ⟨[d] ++ t, by rw [ht, List.append_assoc]⟩

/-- A name already resolved in the accumulator keeps its binding through the
dedup fold. -/
theorem find?_foldl_dedup_of_some (nm : String) (l : List SpecToolDescriptor)
    (acc : List SpecToolDescriptor) (y : SpecToolDescriptor)
    (h : acc.find? (fun d => d.name == nm) = some y) :
    (l.foldl dedup_step acc).find? (fun d => d.name == nm) = some y := by
  obtain ⟨t, ht⟩ := foldl_dedup_step_append l acc
  rw [ht, List.find?_append, h]
  rfl

/-- A name not yet resolved in the accumulator resolves through the dedup
fold to its first occurrence in the remaining input. -/
theorem find?_foldl_dedup_of_none (nm : String) :
    ∀ (l : List SpecToolDescriptor) (acc : List SpecToolDescriptor),
    acc.find? (fun d => d.name == nm) = none →
    (l.foldl dedup_step acc).find? (fun d => d.name == nm)
      = l.find? (fun d => d.name == nm) := by
  intro l
  induction l with
  | nil => intro acc h; exact h
  | cons d rest ih =>
    intro acc h
    rw [List.foldl_cons]
    by_cases hany : (acc.any (fun e => e.name == d.name)) = true
    · rw [show dedup_step acc d = acc from by rw [dedup_step, if_pos hany]]
      have hpd : (d.name == nm) = false := by
        by_contra hpd'
        have hpd2 : (d.name == nm) = true := by
          revert hpd'; cases (d.name == nm) <;> simp
        obtain ⟨e, he, hbe⟩ := List.any_eq_true.mp hany
        have hename : e.name = d.name := by simpa using hbe
        have hsome : (acc.find? (fun x => x.name == nm)).isSome :=
          List.find?_isSome.mpr ⟨e, he, by rw [hename]; exact hpd2⟩
        rw [h] at hsome
        cases hsome
      have hrhs : (d :: rest).find? (fun x => x.name == nm)
          = rest.find? (fun x => x.name == nm) :=
        List.find?_cons_of_neg rest (by simp [hpd])
      rw [hrhs]
      exact ih acc h
    · rw [show dedup_step acc d = acc ++ [d] from by rw [dedup_step, if_neg hany]]
      by_cases hpd : (d.name == nm) = true
      · have hone : List.find? (fun x => x.name == nm) [d] = some d :=
          List.find?_cons_of_pos [] hpd
        have hacc2 : (acc ++ [d]).find? (fun x => x.name == nm) = some d := by
          rw [List.find?_append, h, hone]
          rfl
        rw [find?_foldl_dedup_of_some nm rest (acc ++ [d]) d hacc2]
        exact (List.find?_cons_of_pos rest hpd).symm
      · have hpd' : (d.name == nm) = false := by
          revert hpd; cases (d.name == nm) <;> simp
        have hone : List.find? (fun x => x.name == nm) [d] = none :=
          List.find?_cons_of_neg [] (by simp [hpd'])
        have hacc2 : (acc ++ [d]).find? (fun x => x.name == nm) = none := by
          rw [List.find?_append, h, hone]
          rfl
        rw [ih (acc ++ [d]) hacc2]
        exact (List.find?_cons_of_neg rest (by simp [hpd'])).symm

/-- The dedup fold keeps the registry names pairwise distinct. -/
theorem nodup_foldl_dedup :
    ∀ (l : List SpecToolDescriptor) (acc : List SpecToolDescriptor),
    ((acc.map (fun d => d.name)).Nodup) →
    (((l.foldl dedup_step acc).map (fun d => d.name)).Nodup) := by
  intro l
  induction l with
  | nil => intro acc h; exact h
  | cons d rest ih =>
    intro acc h
    rw [List.foldl_cons]
    by_cases hany : (acc.any (fun e => e.name == d.name)) = true
    · rw [show dedup_step acc d = acc from by rw [dedup_step, if_pos hany]]
      exact ih acc h
    · rw [show dedup_step acc d = acc ++ [d] from by rw [dedup_step, if_neg hany]]
      refine ih (acc ++ [d]) ?_
      rw [List.map_append]
      show ((acc.map (fun d => d.name)) ++ [d.name]).Nodup
      refine List.nodup_append.mpr ⟨h, List.nodup_singleton _, ?_⟩
      rw [List.disjoint_singleton]
      intro hmem
      obtain ⟨e, he, hename⟩ := List.mem_map.mp hmem
      have := List.any_eq_false.mp (Bool.eq_false_iff.mpr hany) e he
      rw [hename] at this
      exact this (beq_self_eq_true d.name)

/-- C7: for every list of providers the discovered registry holds exactly
one descriptor per tool name; looking a name up in the registry gives the
FIRST descriptor of that name in provider-listing order (so a duplicate
name across providers is bound to the first-discovered provider); and every
registry entry is exactly that first occurrence — duplicates are dropped
without error.  Modelled from the spec (§4.1): the multi-provider discovery
code is missing from the tree (see `discover`). -/
theorem tool_discovery_dedup_by_name (providers : List (List (String × String))) :
    ((discover providers).map (fun d => d.name)).Nodup ∧
    (∀ nm, (discover providers).find? (fun d => d.name == nm)
        = (flatten_tools providers).find? (fun d => d.name == nm)) ∧
    (∀ d, d ∈ discover providers →
      (flatten_tools providers).find? (fun e => e.name == d.name) = some d) := by
  refine ⟨?_, ?_, ?_⟩
  · exact nodup_foldl_dedup (flatten_tools providers) [] (by simp)
  · intro nm
    exact find?_foldl_dedup_of_none nm (flatten_tools providers) [] rfl
  · intro d hd
    rw [← find?_foldl_dedup_of_none d.name (flatten_tools providers) [] rfl]
    have hnod := nodup_foldl_dedup (flatten_tools providers) [] (by simp)
    have hsome : ((discover providers).find? (fun e => e.name == d.name)).isSome :=
      List.find?_isSome.mpr ⟨d, hd, beq_self_eq_true d.name⟩
    obtain ⟨a, ha⟩ := Option.isSome_iff_exists.mp hsome
    have hpa := List.find?_some ha
    have hamem := List.mem_of_find?_eq_some ha
    have had : a = d := List.inj_on_of_nodup_map hnod hamem hd (by simpa using hpa)
    rw [had] at ha
    exact ha

end LinkedinIntern
